import Mathlib

/-!
# CRC-32C module (`index.js`): embedding and properties

The JavaScript module wraps a native binding (`require('bindings')('crc32c')`)
that provides two engines, `sse42_crc` and `table_crc`, and a capability flag
`hardware_support`.  The module chooses one engine as `calculate`, and builds
a progressive calculator (`Crc32C_`, exported as `CRC32`) and a writable
stream (`Crc32CStream`) on top of it.

The JavaScript code is embedded from `index.js`.  The native engines are not
part of the JavaScript source: they are modelled from the specification and
marked as such.
-/

namespace Sse4Crc32

/-! ## JavaScript values -/

/-- A byte of a buffer. -/
abbrev Byte := Fin 256

/-- JavaScript numbers: every finite double is a rational, the remaining
values are the two infinities, negative zero and NaN. -/
inductive JSNumber
  | nan
  | posInfinity
  | negInfinity
  | negZero
  | finite (q : ℚ)
  deriving DecidableEq

/-- JavaScript values, as far as `index.js` can tell them apart (by `typeof`,
by `== null` and by truthiness). -/
inductive JSValue
  | undefined
  | null
  | boolean (b : Bool)
  | number (x : JSNumber)
  | bigint (i : Int)
  | string (s : String)
  | symbol (id : Nat)
  | buffer (bytes : List Byte)
  | object (id : Nat)
  | func (id : Nat)
  | typeError (message : String)
  deriving DecidableEq

namespace JSValue

/-- The `typeof` operator. -/
def typeof : JSValue → String
  | undefined => "undefined"
  | null => "object"
  | boolean _ => "boolean"
  | number _ => "number"
  | bigint _ => "bigint"
  | string _ => "string"
  | symbol _ => "symbol"
  | buffer _ => "object"
  | object _ => "object"
  | func _ => "function"
  | typeError _ => "object"

/-- Truthiness (`ToBoolean`), as used by `if (v)`, `v || w` and `c ? a : b`. -/
def toBoolean : JSValue → Bool
  | undefined => false
  | null => false
  | boolean b => b
  | number (.finite q) => decide (q ≠ 0)
  | number .nan => false
  | number .negZero => false
  | number _ => true
  | bigint i => decide (i ≠ 0)
  | string s => decide (s ≠ "")
  | _ => true

/-- The test `v == null`: true exactly for `null` and `undefined`. -/
def looseEqNull : JSValue → Bool
  | undefined => true
  | null => true
  | _ => false

/-- The operator `a || b`. -/
def or (a b : JSValue) : JSValue :=
  if a.toBoolean then a else b

/-- The number literal `0`. -/
def zero : JSValue := number (.finite 0)

/-- An unsigned 32-bit integer as a JavaScript number. -/
def u32 (n : Nat) : JSValue := number (.finite (n : ℚ))

end JSValue

/-- A JavaScript function of two arguments: it returns a value or throws one. -/
abbrev JSFunction := JSValue → JSValue → Except JSValue JSValue

/-! ## The native binding `crc32c` (not part of `index.js`) -/

/-- Bit reversal of a 32-bit word. -/
def reflect32 (x : Nat) : Nat :=
  (List.range 32).foldl (fun acc i => acc ||| (((x >>> i) % 2) <<< (31 - i))) 0

/-- Modelled from the spec: the table-generation constant of the native
engines, which is missing from the source.  It is the Castagnoli polynomial
`0x1EDC6F41` (normal form) in reflected form. -/
def POLY : Nat := reflect32 0x1EDC6F41

/-- Modelled from the spec: one bit of reflected CRC reduction, the step from
which the lookup table of the native engine is generated and which the CPU
checksum instruction iterates. -/
def shiftStep (x : Nat) : Nat :=
  if x % 2 = 1 then (x >>> 1) ^^^ POLY else x >>> 1

/-- Modelled from the spec: entry `i` of the lookup table of the native
software engine (eight reduction steps of the index). -/
def tableEntry (i : Nat) : Nat := shiftStep^[8] i

/-- Modelled from the spec: the precomputed lookup table of the native
software engine, 256 entries of 32-bit values. -/
def crcTable : List Nat := (List.range 256).map tableEntry

/-- Modelled from the spec: the per-byte step of the native software engine.
The byte is XORed into the low byte of the running state, the table entry
indexed by the resulting byte is looked up and combined with the state
shifted right by eight bits. -/
def tableStep (crc : Nat) (b : Byte) : Nat :=
  crcTable.getD ((crc ^^^ b.val) % 256) 0 ^^^ (crc >>> 8)

/-- Modelled from the spec: the native software table engine
`compute(data: bytes, seed: u32) -> u32`, which is missing from the source.
The seed is inverted, the bytes are reduced in order, the result is
inverted (the CRC-32C convention of initial and final XOR). -/
def table_crc (data : List Byte) (seed : Nat) : Nat :=
  data.foldl tableStep (seed ^^^ 0xFFFFFFFF) ^^^ 0xFFFFFFFF

/-- Modelled from the spec: the CPU checksum instruction on one byte (eight
reduction steps of the state XORed with the byte). -/
def crc32_u8 (crc : Nat) (b : Byte) : Nat := shiftStep^[8] (crc ^^^ b.val)

/-- Modelled from the spec: the CPU checksum instruction on one 64-bit word
(sixty-four reduction steps of the state XORed with the word). -/
def crc32_u64 (crc : Nat) (w : Nat) : Nat := shiftStep^[64] (crc ^^^ w)

/-- The value of a little-endian word read from memory. -/
def leWord (bs : List Byte) : Nat :=
  bs.foldr (fun b acc => b.val ||| (acc <<< 8)) 0

/-- Modelled from the spec: the loop of the native hardware engine.  The
input is consumed eight bytes at a time with the word instruction; the
remaining bytes, fewer than eight, are consumed with the byte instruction. -/
def sse42_loop : List Byte → Nat → Nat
  | b0 :: b1 :: b2 :: b3 :: b4 :: b5 :: b6 :: b7 :: rest, crc =>
      sse42_loop rest (crc32_u64 crc (leWord [b0, b1, b2, b3, b4, b5, b6, b7]))
  | tail, crc => tail.foldl crc32_u8 crc

/-- Modelled from the spec: the native hardware engine
`compute(data: bytes, seed: u32) -> u32`, which is missing from the source. -/
def sse42_crc (data : List Byte) (seed : Nat) : Nat :=
  sse42_loop data (seed ^^^ 0xFFFFFFFF) ^^^ 0xFFFFFFFF

/-- The UTF-8 encoding of a string. -/
def utf8 (s : String) : List Byte :=
  s.data.flatMap (fun c => (String.utf8EncodeChar c).map (fun u => u.val))

/-- Modelled from the spec: the input of a native engine is a byte sequence
or a textual string convertible to bytes; any other input is unsupported. -/
def inputBytes : JSValue → Option (List Byte)
  | .buffer bytes => some bytes
  | .string s => some (utf8 s)
  | _ => none

/-- Modelled from the spec: the seed of a native engine is an unsigned 32-bit
number and defaults to 0 when absent.  The specification does not say what
an engine does with any other seed; the model rejects it. -/
def seedOf : JSValue → Option Nat
  | .undefined => some 0
  | .number (.finite q) =>
      if q.den = 1 ∧ 0 ≤ q.num ∧ q.num.toNat < 2 ^ 32 then some q.num.toNat else none
  | _ => none

/-- Modelled from the spec: the calling convention of a native engine,
`calculate(data: byte-sequence, seed: u32 = 0) -> u32`.  An unsupported
argument fails fast with a `TypeError`. -/
def nativeEngine (engine : List Byte → Nat → Nat) : JSFunction :=
  fun input seed =>
    match inputBytes input, seedOf seed with
    | some bytes, some s => .ok (JSValue.u32 (engine bytes s))
    | none, _ => .error (.typeError "unsupported input type")
    | _, none => .error (.typeError "unsupported seed type")

/-- The object returned by `require('bindings')('crc32c')`. -/
structure Native where
  hardware_support : Bool
  sse42_crc : JSFunction
  table_crc : JSFunction

/-- Modelled from the spec: the native binding `crc32c`, which is missing from
the source, on a host whose capability flag is `hardware_support`. -/
def Crc32C (hardware_support : Bool) : Native :=
  ⟨hardware_support, nativeEngine sse42_crc, nativeEngine table_crc⟩

/-! ## `module.exports` (lines 89-100) -/

/-- The exported interface.  `fromStream` and `CRC32` are the constructors
embedded below; the last three fields are present outside production. -/
structure Exports where
  calculate : JSFunction
  hardware_support : Option Bool
  sse42_crc : Option JSFunction
  table_crc : Option JSFunction

/-- The module body that builds `module.exports`, run once when the module
is loaded: `Crc32C` is the native binding and `NODE_ENV` is the value of
`process.NODE_ENV`. -/
def moduleExports (Crc32C : Native) (NODE_ENV : JSValue) : Exports :=
  let calculate := if Crc32C.hardware_support then Crc32C.sse42_crc else Crc32C.table_crc
  if NODE_ENV ≠ .string "production" then
    ⟨calculate, some Crc32C.hardware_support, some Crc32C.sse42_crc, some Crc32C.table_crc⟩
  else
    ⟨calculate, none, none, none⟩

/-! ## Executions -/

/-- One invocation of `module.exports.calculate`. -/
structure Call where
  input : JSValue
  seed : JSValue
  deriving DecidableEq

/-- The effect of running a constructor or a method on the object `this`:
the object afterwards, the completion (a returned value or a thrown one)
and the invocations of `module.exports.calculate` that were made. -/
structure Effect (σ ρ : Type) where
  this : σ
  completion : Except JSValue ρ
  calls : List Call

/-- What a method returns: the receiver itself (`return this`) or a value. -/
inductive Returned
  | self
  | value (v : JSValue)
  deriving DecidableEq

/-! ## The progressive calculator `Crc32C_` (lines 57-82) -/

/-- An instance of `Crc32C_`. -/
structure Crc32CObj where
  crc32c : JSValue
  deriving DecidableEq

/-- The method `Crc32C_.prototype.update`. -/
def Crc32C_.update (exports : Exports) (this : Crc32CObj) (input : JSValue) :
    Effect Crc32CObj Returned :=
  match exports.calculate input this.crc32c with
  | .ok v => ⟨⟨v⟩, .ok .self, [⟨input, this.crc32c⟩]⟩
  | .error e => ⟨this, .error e, [⟨input, this.crc32c⟩]⟩

/-- The method `Crc32C_.prototype.crc`. -/
def Crc32C_.crc (this : Crc32CObj) : Effect Crc32CObj Returned :=
  ⟨this, .ok (.value this.crc32c), []⟩

/-- The constructor `new Crc32C_(input, initialCrc)`. -/
def Crc32C_ (exports : Exports) (input initialCrc : JSValue) : Effect Crc32CObj Unit :=
  let this : Crc32CObj := ⟨JSValue.or initialCrc JSValue.zero⟩
  if input.toBoolean then
    let r := Crc32C_.update exports this input
    ⟨r.this, r.completion.map (fun _ => ()), r.calls⟩
  else
    ⟨this, .ok (), []⟩

/-- The statements `s.update(c1); ...; s.update(cn)` in order: a thrown
value stops the sequence. -/
def Crc32C_.updates (exports : Exports) : Crc32CObj → List JSValue → Effect Crc32CObj Unit
  | this, [] => ⟨this, .ok (), []⟩
  | this, c :: cs =>
      let r := Crc32C_.update exports this c
      match r.completion with
      | .ok _ =>
          let r2 := Crc32C_.updates exports r.this cs
          ⟨r2.this, r2.completion, r.calls ++ r2.calls⟩
      | .error e => ⟨r.this, .error e, r.calls⟩

/-- The value of `crc()` called `n + 1` times in a row on `this`, with the
object left behind. -/
def Crc32C_.crcRepeated : Nat → Crc32CObj → Effect Crc32CObj Returned
  | 0, this => Crc32C_.crc this
  | n + 1, this => Crc32C_.crcRepeated n (Crc32C_.crc this).this

/-- The program `s = new CRC32(input, initialCrc); s.update(c1); ...;
s.update(cn); s.crc()`: the completion of the last expression, or what was
thrown on the way. -/
def sessionCrc (exports : Exports) (input initialCrc : JSValue) (chunks : List JSValue) :
    Except JSValue Returned :=
  let made := Crc32C_ exports input initialCrc
  match made.completion with
  | .error e => .error e
  | .ok _ =>
      let fed := Crc32C_.updates exports made.this chunks
      match fed.completion with
      | .error e => .error e
      | .ok _ => (Crc32C_.crc fed.this).completion

/-! ## The stream `Crc32CStream` (lines 19-46) -/

/-- An instance of `Crc32CStream`. -/
structure StreamObj where
  crc : JSValue
  deriving DecidableEq

/-- The body of `Crc32CStream` from line 24 on, where `this` is an instance.
The base constructor `stream.Writable` installs the `write` handler and
does not touch `this.crc`. -/
def Crc32CStream.init (crc : JSValue) : Except JSValue StreamObj :=
  if crc.looseEqNull then
    .ok ⟨JSValue.zero⟩
  else if crc.typeof ≠ "number" then
    .error (.typeError ("crc MUST be a number; got " ++ crc.typeof))
  else
    .ok ⟨crc⟩

/-- The function `Crc32CStream`, called with `new` (`thisIsInstance`) or
without: the result is the stream or a thrown value.  Without `new`, line 21
returns `new Crc32CStream(crc)`, which runs the body on a fresh instance. -/
def Crc32CStream (thisIsInstance : Bool) (crc : JSValue) : Except JSValue StreamObj :=
  if !thisIsInstance then
    -- return new Crc32CStream(crc)
    Crc32CStream.init crc
  else
    Crc32CStream.init crc

/-- The effect of the `write` handler: the stream afterwards and the
invocations of the completion callback `next`, each with its two arguments. -/
structure WriteEffect where
  this : StreamObj
  nextCalls : List (JSValue × JSValue)
  calls : List Call

/-- The `write` handler passed to `stream.Writable` (lines 33-43). -/
def Crc32CStream.write (exports : Exports) (this : StreamObj) (chunk _encoding : JSValue) :
    WriteEffect :=
  let err := JSValue.undefined
  let tried : StreamObj × JSValue :=
    match exports.calculate chunk this.crc with
    | .ok v => (⟨v⟩, err)
    | .error e => (this, e)
  ⟨tried.1, [(tried.2, chunk)], [⟨chunk, this.crc⟩]⟩

/-! ## Reference behaviour and test data -/

/-- The left fold `calculate(cn, ... calculate(c1, s))` of the specification,
which fails as soon as one `calculate` throws. -/
def foldCalculate (exports : Exports) (s : JSValue) (chunks : List JSValue) :
    Except JSValue JSValue :=
  chunks.foldlM (fun state c => exports.calculate c state) s

/-- The module loaded on a host with hardware support, outside production. -/
def hostExports : Exports := moduleExports (Crc32C true) .undefined

/-- The nine ASCII bytes of `"123456789"`. -/
def digits : List Byte := [0x31, 0x32, 0x33, 0x34, 0x35, 0x36, 0x37, 0x38, 0x39]

/-! ## The engines: bit-level lemmas -/

theorem POLY_eq : POLY = 0x82F63B78 := by decide

theorem shiftStep_xor (x y : Nat) : shiftStep (x ^^^ y) = shiftStep x ^^^ shiftStep y := by
  have hs : (x ^^^ y) >>> 1 = x >>> 1 ^^^ y >>> 1 := by
    apply Nat.eq_of_testBit_eq
    intro i
    simp [Nat.testBit_shiftRight, Nat.testBit_xor]
  have hp : (x ^^^ y) % 2 = (x % 2 + y % 2) % 2 := by
    have h := Nat.testBit_xor x y 0
    simp only [Nat.testBit_zero] at h
    rcases Nat.mod_two_eq_zero_or_one x with hx | hx <;>
      rcases Nat.mod_two_eq_zero_or_one y with hy | hy <;>
      rcases Nat.mod_two_eq_zero_or_one (x ^^^ y) with hxy | hxy <;>
      simp [hx, hy, hxy] at h ⊢
  unfold shiftStep
  rw [hs, hp]
  rcases Nat.mod_two_eq_zero_or_one x with hx | hx <;>
    rcases Nat.mod_two_eq_zero_or_one y with hy | hy <;>
    simp only [hx, hy] <;> norm_num <;>
    (apply Nat.eq_of_testBit_eq
     intro i
     simp only [Nat.testBit_xor]
     cases (x >>> 1).testBit i <;> cases (y >>> 1).testBit i <;> cases POLY.testBit i <;> rfl)

theorem shiftStep_iterate_xor (k x y : Nat) :
    shiftStep^[k] (x ^^^ y) = shiftStep^[k] x ^^^ shiftStep^[k] y := by
  induction k generalizing x y with
  | zero => rfl
  | succ k ih => simp only [Function.iterate_succ_apply, shiftStep_xor, ih]

theorem shiftStep_double (w : Nat) : shiftStep (w <<< 1) = w := by
  unfold shiftStep
  have h : (w <<< 1) % 2 = 0 := by simp [Nat.shiftLeft_eq]
  simp [h, Nat.shiftLeft_eq, Nat.shiftRight_eq_div_pow]

theorem shiftStep_iterate_shiftLeft (k w : Nat) : shiftStep^[k] (w <<< k) = w := by
  induction k generalizing w with
  | zero => simp
  | succ k ih =>
    have h : w <<< (k + 1) = (w <<< k) <<< 1 := by
      simp [Nat.shiftLeft_eq, Nat.pow_succ, Nat.mul_assoc]
    rw [Function.iterate_succ_apply, h, shiftStep_double, ih]

theorem split_low_byte (x : Nat) : x = (x % 256) ^^^ ((x >>> 8) <<< 8) := by
  apply Nat.eq_of_testBit_eq
  intro i
  have h256 : (256 : Nat) = 2 ^ 8 := by norm_num
  rw [h256, Nat.testBit_xor, Nat.testBit_mod_two_pow, Nat.testBit_shiftLeft,
    Nat.testBit_shiftRight]
  by_cases hi : i < 8
  · simp [hi, Nat.not_le.mpr hi]
  · have hge : i ≥ 8 := Nat.not_lt.mp hi
    have hsub : 8 + (i - 8) = i := by omega
    simp [hi, hge, hsub]

theorem byte_or_eq_xor (b : Byte) (w : Nat) : b.val ||| (w <<< 8) = b.val ^^^ (w <<< 8) := by
  apply Nat.eq_of_testBit_eq
  intro i
  rw [Nat.testBit_or, Nat.testBit_xor, Nat.testBit_shiftLeft]
  by_cases hi : i < 8
  · simp [Nat.not_le.mpr hi]
  · have hge : i ≥ 8 := Nat.not_lt.mp hi
    have hb : b.val.testBit i = false := by
      apply Nat.testBit_lt_two_pow
      calc b.val < 256 := b.isLt
        _ = 2 ^ 8 := by norm_num
        _ ≤ 2 ^ i := Nat.pow_le_pow_right (by norm_num) hge
    simp [hb]

theorem crcTable_getD (i : Nat) (h : i < 256) : crcTable.getD i 0 = tableEntry i := by
  unfold crcTable
  rw [List.getD_eq_getElem _ _ (by simpa using h)]
  simp

theorem byte_shiftRight (b : Byte) : b.val >>> 8 = 0 := by
  rw [Nat.shiftRight_eq_div_pow]
  exact Nat.div_eq_of_lt (by have := b.isLt; omega)

theorem shiftRight_xor (x y k : Nat) : (x ^^^ y) >>> k = x >>> k ^^^ y >>> k := by
  apply Nat.eq_of_testBit_eq
  intro i
  simp [Nat.testBit_shiftRight, Nat.testBit_xor]

/-- The table step of the software engine is the byte instruction of the
hardware engine. -/
theorem tableStep_eq_crc32_u8 (crc : Nat) (b : Byte) : tableStep crc b = crc32_u8 crc b := by
  unfold tableStep crc32_u8
  have hlt : (crc ^^^ b.val) % 256 < 256 := Nat.mod_lt _ (by norm_num)
  rw [crcTable_getD _ hlt]
  conv_rhs => rw [split_low_byte (crc ^^^ b.val)]
  rw [shiftStep_iterate_xor, shiftStep_iterate_shiftLeft, shiftRight_xor, byte_shiftRight]
  simp [tableEntry]

theorem word_step (crc w : Nat) (b : Byte) :
    shiftStep^[8] (crc ^^^ (b.val ||| (w <<< 8))) = tableStep crc b ^^^ w := by
  rw [byte_or_eq_xor, ← Nat.xor_assoc, shiftStep_iterate_xor, shiftStep_iterate_shiftLeft,
    tableStep_eq_crc32_u8]
  rfl

theorem leWord_reduce (bs : List Byte) (crc : Nat) :
    shiftStep^[8 * bs.length] (crc ^^^ leWord bs) = bs.foldl tableStep crc := by
  induction bs generalizing crc with
  | nil => simp [leWord]
  | cons b bs ih =>
    have hlen : 8 * (b :: bs).length = 8 * bs.length + 8 := by simp [Nat.mul_succ]
    have hw : leWord (b :: bs) = b.val ||| (leWord bs <<< 8) := rfl
    rw [hlen, Function.iterate_add_apply, hw, word_step, ih, List.foldl_cons]

theorem sse42_loop_eq_foldl (data : List Byte) (crc : Nat) :
    sse42_loop data crc = data.foldl tableStep crc := by
  induction data, crc using sse42_loop.induct with
  | case1 b0 b1 b2 b3 b4 b5 b6 b7 rest crc ih =>
    rw [sse42_loop, ih]
    have h := leWord_reduce [b0, b1, b2, b3, b4, b5, b6, b7] crc
    simp only [List.length_cons, List.length_nil] at h
    unfold crc32_u64
    rw [h]
    rfl
  | case2 tail crc hne =>
    rw [sse42_loop]
    · have hf : crc32_u8 = tableStep := by
        funext c b
        exact (tableStep_eq_crc32_u8 c b).symm
      rw [hf]
    · exact hne

/-- The two engines compute the same function, for every seed. -/
theorem sse42_crc_eq_table_crc (data : List Byte) (seed : Nat) :
    sse42_crc data seed = table_crc data seed := by
  unfold sse42_crc table_crc
  rw [sse42_loop_eq_foldl]

theorem xor_mask_cancel (x m : Nat) : (x ^^^ m) ^^^ m = x := by
  rw [Nat.xor_assoc, Nat.xor_self, Nat.xor_zero]

theorem table_crc_nil (seed : Nat) : table_crc [] seed = seed := by
  simp [table_crc, xor_mask_cancel]

theorem table_crc_append (a b : List Byte) (seed : Nat) :
    table_crc (a ++ b) seed = table_crc b (table_crc a seed) := by
  simp [table_crc, List.foldl_append, xor_mask_cancel]

theorem POLY_lt : POLY < 2 ^ 32 := by decide

theorem shiftStep_lt (x : Nat) (h : x < 2 ^ 32) : shiftStep x < 2 ^ 32 := by
  have hs : x >>> 1 < 2 ^ 32 := by
    rw [Nat.shiftRight_eq_div_pow]
    exact lt_of_le_of_lt (Nat.div_le_self _ _) h
  unfold shiftStep
  split
  · exact Nat.xor_lt_two_pow hs POLY_lt
  · exact hs

theorem shiftStep_iterate_lt (k x : Nat) (h : x < 2 ^ 32) : shiftStep^[k] x < 2 ^ 32 := by
  induction k generalizing x with
  | zero => simpa using h
  | succ k ih =>
    rw [Function.iterate_succ_apply]
    exact ih _ (shiftStep_lt x h)

theorem tableStep_lt (crc : Nat) (b : Byte) (h : crc < 2 ^ 32) : tableStep crc b < 2 ^ 32 := by
  rw [tableStep_eq_crc32_u8]
  unfold crc32_u8
  apply shiftStep_iterate_lt
  apply Nat.xor_lt_two_pow h
  exact lt_trans b.isLt (by norm_num)

theorem foldl_tableStep_lt (data : List Byte) (crc : Nat) (h : crc < 2 ^ 32) :
    data.foldl tableStep crc < 2 ^ 32 := by
  induction data generalizing crc with
  | nil => simpa using h
  | cons b bs ih => exact ih _ (tableStep_lt crc b h)

/-- The software engine returns an unsigned 32-bit value for such a seed. -/
theorem table_crc_lt (data : List Byte) (seed : Nat) (h : seed < 2 ^ 32) :
    table_crc data seed < 2 ^ 32 := by
  unfold table_crc
  have hm : (0xFFFFFFFF : Nat) < 2 ^ 32 := by norm_num
  exact Nat.xor_lt_two_pow (foldl_tableStep_lt _ _ (Nat.xor_lt_two_pow h hm)) hm

/-! ## The native binding: calling convention -/

theorem u32_zero : JSValue.u32 0 = JSValue.zero := by
  simp [JSValue.u32, JSValue.zero]

theorem seedOf_u32 (n : Nat) (h : n < 2 ^ 32) : seedOf (JSValue.u32 n) = some n := by
  have hn : ((n : ℚ)).num = (n : ℤ) := Rat.num_natCast n
  have hd : ((n : ℚ)).den = 1 := Rat.den_natCast n
  unfold seedOf JSValue.u32
  simp only [hn, hd, Int.toNat_ofNat]
  rw [if_pos ⟨trivial, Int.ofNat_nonneg n, h⟩]

theorem nativeEngine_bytes (engine : List Byte → Nat → Nat) (input : JSValue)
    (bytes : List Byte) (n : Nat) (hin : inputBytes input = some bytes) (h : n < 2 ^ 32) :
    nativeEngine engine input (JSValue.u32 n) = .ok (JSValue.u32 (engine bytes n)) := by
  unfold nativeEngine
  rw [seedOf_u32 n h, hin]

theorem toBoolean_u32 (n : Nat) : (JSValue.u32 n).toBoolean = decide (n ≠ 0) := by
  simp [JSValue.u32, JSValue.toBoolean]

theorem or_u32_zero (n : Nat) : JSValue.or (JSValue.u32 n) JSValue.zero = JSValue.u32 n := by
  by_cases h : n = 0
  · subst h
    simp [JSValue.or, toBoolean_u32, u32_zero]
  · simp [JSValue.or, toBoolean_u32, h]

/-- The exported `calculate` on a buffer and an unsigned 32-bit seed, on
either kind of host. -/
theorem calculate_bytes (hardware_support : Bool) (NODE_ENV input : JSValue)
    (bytes : List Byte) (n : Nat) (hin : inputBytes input = some bytes) (h : n < 2 ^ 32) :
    (moduleExports (Crc32C hardware_support) NODE_ENV).calculate input (JSValue.u32 n)
      = .ok (JSValue.u32 (table_crc bytes n)) := by
  have hs : nativeEngine sse42_crc = nativeEngine table_crc := by
    have : sse42_crc = table_crc := by
      funext d s
      exact sse42_crc_eq_table_crc d s
    rw [this]
  have hc : (moduleExports (Crc32C hardware_support) NODE_ENV).calculate
      = nativeEngine table_crc := by
    unfold moduleExports Crc32C
    cases hardware_support <;> by_cases he : NODE_ENV = .string "production" <;> simp [he, hs]
  rw [hc, nativeEngine_bytes _ _ _ _ hin h]

theorem calculate_buffer (hardware_support : Bool) (NODE_ENV : JSValue) (bytes : List Byte)
    (n : Nat) (h : n < 2 ^ 32) :
    (moduleExports (Crc32C hardware_support) NODE_ENV).calculate (.buffer bytes) (JSValue.u32 n)
      = .ok (JSValue.u32 (table_crc bytes n)) :=
  calculate_bytes hardware_support NODE_ENV (.buffer bytes) bytes n rfl h

theorem table_crc_digits : table_crc digits 0 = 0xE3069283 := by decide

theorem utf8_digits : utf8 "123456789" = digits := by decide

/-! ## The exported `calculate` -/

/-- C1: for every 32-bit seed and all byte sequences `A` and `B`, on either
kind of host, `calculate(A, seed)` returns a value `mid`, and
`calculate(A ++ B, seed)` and `calculate(B, mid)` return the same unsigned
32-bit number. -/
theorem calculate_composable (hardware_support : Bool) (NODE_ENV : JSValue)
    (A B : List Byte) (seed : Nat) (h : seed < 2 ^ 32) :
    ∃ mid r, r < 2 ^ 32 ∧
      (moduleExports (Crc32C hardware_support) NODE_ENV).calculate
        (.buffer A) (JSValue.u32 seed) = .ok mid ∧
      (moduleExports (Crc32C hardware_support) NODE_ENV).calculate
        (.buffer B) mid = .ok (JSValue.u32 r) ∧
      (moduleExports (Crc32C hardware_support) NODE_ENV).calculate
        (.buffer (A ++ B)) (JSValue.u32 seed) = .ok (JSValue.u32 r) := by
  refine ⟨JSValue.u32 (table_crc A seed), table_crc (A ++ B) seed,
    table_crc_lt _ _ h, calculate_buffer _ _ _ _ h, ?_, calculate_buffer _ _ _ _ h⟩
  rw [calculate_buffer _ _ _ _ (table_crc_lt A seed h), table_crc_append]

theorem calculate_composable_witness :
    (0 : Nat) < 2 ^ 32 ∧ ∃ mid r, r < 2 ^ 32 ∧
      (moduleExports (Crc32C true) .undefined).calculate
        (.buffer [1, 2, 3]) (JSValue.u32 0) = .ok mid ∧
      (moduleExports (Crc32C true) .undefined).calculate
        (.buffer [4, 5]) mid = .ok (JSValue.u32 r) ∧
      (moduleExports (Crc32C true) .undefined).calculate
        (.buffer ([1, 2, 3] ++ [4, 5])) (JSValue.u32 0) = .ok (JSValue.u32 r) :=
  ⟨by norm_num, calculate_composable true .undefined [1, 2, 3] [4, 5] 0 (by norm_num)⟩

/-- C2: on either kind of host, `calculate` applied to the nine ASCII bytes
of `"123456789"` (as a buffer or as the string) with seed 0 returns
`0xE3069283`. -/
theorem calculate_check_value (hardware_support : Bool) (NODE_ENV : JSValue) :
    (moduleExports (Crc32C hardware_support) NODE_ENV).calculate
        (.buffer digits) JSValue.zero = .ok (JSValue.u32 0xE3069283) ∧
    (moduleExports (Crc32C hardware_support) NODE_ENV).calculate
        (.string "123456789") JSValue.zero = .ok (JSValue.u32 0xE3069283) := by
  have h0 : (0 : Nat) < 2 ^ 32 := by norm_num
  rw [← u32_zero]
  constructor
  · rw [calculate_buffer _ _ _ _ h0, table_crc_digits]
  · rw [calculate_bytes _ _ (.string "123456789") digits 0
      (congrArg some utf8_digits) h0, table_crc_digits]

/-- C3: for every 32-bit seed, on either kind of host, `calculate` on the
empty byte sequence does not throw and returns the seed unchanged. -/
theorem calculate_empty (hardware_support : Bool) (NODE_ENV : JSValue)
    (seed : Nat) (h : seed < 2 ^ 32) :
    (moduleExports (Crc32C hardware_support) NODE_ENV).calculate
      (.buffer []) (JSValue.u32 seed) = .ok (JSValue.u32 seed) := by
  rw [calculate_buffer _ _ _ _ h, table_crc_nil]

theorem calculate_empty_witness :
    (0xDEADBEEF : Nat) < 2 ^ 32 ∧
    (moduleExports (Crc32C false) .undefined).calculate
      (.buffer []) (JSValue.u32 0xDEADBEEF) = .ok (JSValue.u32 0xDEADBEEF) :=
  ⟨by norm_num, calculate_empty false .undefined 0xDEADBEEF (by norm_num)⟩

/-- C4: for every byte sequence and every 32-bit seed, the hardware engine
`sse42_crc` and the software engine `table_crc` of the binding return the
same unsigned 32-bit number, whatever the length of the input. -/
theorem engines_agree (hardware_support : Bool) (data : List Byte) (seed : Nat)
    (h : seed < 2 ^ 32) :
    ∃ r, r < 2 ^ 32 ∧
      (Crc32C hardware_support).sse42_crc (.buffer data) (JSValue.u32 seed)
        = .ok (JSValue.u32 r) ∧
      (Crc32C hardware_support).table_crc (.buffer data) (JSValue.u32 seed)
        = .ok (JSValue.u32 r) := by
  refine ⟨table_crc data seed, table_crc_lt _ _ h, ?_, ?_⟩
  · show nativeEngine sse42_crc (.buffer data) (JSValue.u32 seed) = _
    rw [nativeEngine_bytes _ (.buffer data) data _ rfl h, sse42_crc_eq_table_crc]
  · show nativeEngine table_crc (.buffer data) (JSValue.u32 seed) = _
    rw [nativeEngine_bytes _ (.buffer data) data _ rfl h]

theorem engines_agree_witness :
    (7 : Nat) < 2 ^ 32 ∧ ∃ r, r < 2 ^ 32 ∧
      (Crc32C true).sse42_crc (.buffer (digits ++ [0x61, 0x62])) (JSValue.u32 7)
        = .ok (JSValue.u32 r) ∧
      (Crc32C true).table_crc (.buffer (digits ++ [0x61, 0x62])) (JSValue.u32 7)
        = .ok (JSValue.u32 r) :=
  ⟨by norm_num, engines_agree true (digits ++ [0x61, 0x62]) 7 (by norm_num)⟩

/-! ## The progressive calculator -/

theorem updates_completion (exports : Exports) (this : Crc32CObj) (chunks : List JSValue) :
    (Crc32C_.updates exports this chunks).completion.map
        (fun _ => (Crc32C_.updates exports this chunks).this.crc32c)
      = foldCalculate exports this.crc32c chunks := by
  induction chunks generalizing this with
  | nil => rfl
  | cons c cs ih =>
    unfold foldCalculate at ih ⊢
    rw [List.foldlM_cons]
    unfold Crc32C_.updates Crc32C_.update
    cases hc : exports.calculate c this.crc32c with
    | error e => rfl
    | ok v => exact ih ⟨v⟩

theorem crcRepeated_eq (n : Nat) (this : Crc32CObj) :
    Crc32C_.crcRepeated n this = ⟨this, .ok (.value this.crc32c), []⟩ := by
  induction n with
  | zero => rfl
  | succ n ih => exact ih

theorem Crc32C_noInput (exports : Exports) (seed : JSValue) :
    Crc32C_ exports .undefined seed = ⟨⟨JSValue.or seed JSValue.zero⟩, .ok (), []⟩ := rfl

theorem sessionCrc_noInput (exports : Exports) (seed : JSValue) (chunks : List JSValue) :
    sessionCrc exports .undefined seed chunks
      = (foldCalculate exports (JSValue.or seed JSValue.zero) chunks).map Returned.value := by
  have h := updates_completion exports ⟨JSValue.or seed JSValue.zero⟩ chunks
  simp only [sessionCrc, Crc32C_noInput]
  cases hc : (Crc32C_.updates exports ⟨JSValue.or seed JSValue.zero⟩ chunks).completion with
  | error e =>
    rw [hc] at h
    rw [← h]
    rfl
  | ok u =>
    rw [hc] at h
    rw [← h]
    rfl

theorem hostExports_digits :
    hostExports.calculate (.buffer digits) JSValue.zero = .ok (JSValue.u32 0xE3069283) := by
  rw [← u32_zero]
  unfold hostExports
  rw [calculate_buffer _ _ _ _ (by norm_num), table_crc_digits]

theorem hostExports_object (s : JSValue) :
    hostExports.calculate (.object 0) s = .error (.typeError "unsupported input type") := by
  show nativeEngine sse42_crc (.object 0) s = _
  cases h : seedOf s <;> simp [nativeEngine, inputBytes, h]

/-- C5: for all inputs `A` and `B`, when `calculate(A, 0)` returns an
unsigned 32-bit number `n`, a session constructed with no input and seed `n`
and then updated with `B` reports the same `crc()` as a session constructed
with no input and no seed and updated with `A` and then with `B`. -/
theorem session_seeding (exports : Exports) (A B : JSValue) (n : Nat)
    (h : exports.calculate A JSValue.zero = .ok (JSValue.u32 n)) :
    sessionCrc exports .undefined (JSValue.u32 n) [B]
      = sessionCrc exports .undefined .undefined [A, B] := by
  have hl : JSValue.or JSValue.undefined JSValue.zero = JSValue.zero := rfl
  rw [sessionCrc_noInput, sessionCrc_noInput, or_u32_zero, hl]
  unfold foldCalculate
  rw [List.foldlM_cons (l := [B]), h]
  rfl

theorem session_seeding_witness :
    hostExports.calculate (.buffer digits) JSValue.zero = .ok (JSValue.u32 0xE3069283) ∧
    sessionCrc hostExports .undefined (JSValue.u32 0xE3069283) [.buffer [0x61]]
      = sessionCrc hostExports .undefined .undefined [.buffer digits, .buffer [0x61]] :=
  ⟨hostExports_digits,
    session_seeding hostExports (.buffer digits) (.buffer [0x61]) 0xE3069283 hostExports_digits⟩

/-- C6, as stated, fails: a seed that is not a number does not make the
construction of a `Crc32C_` session throw.  With no input, the seed
`undefined` gives a session in state 0 and the seed `"abc"` gives a session
whose state is `"abc"`; neither construction throws. -/
theorem session_seed_unchecked :
    JSValue.undefined.typeof ≠ "number" ∧
    (Crc32C_ hostExports .undefined .undefined).completion = .ok () ∧
    (Crc32C_ hostExports .undefined .undefined).this = ⟨JSValue.zero⟩ ∧
    (JSValue.string "abc").typeof ≠ "number" ∧
    (Crc32C_ hostExports .undefined (.string "abc")).completion = .ok () ∧
    (Crc32C_ hostExports .undefined (.string "abc")).this = ⟨.string "abc"⟩ := by
  refine ⟨by decide, rfl, rfl, by decide, ?_, ?_⟩ <;>
    simp [Crc32C_, JSValue.or, JSValue.toBoolean]

/-- C6, amended: for a seed that is `null` or `undefined`, constructing a
`Crc32C_` session behaves as with the seed 0; when the input is falsy the
construction does not throw, the state is 0 and `calculate` is not called. -/
theorem session_absent_seed (exports : Exports) (input seed : JSValue)
    (h : seed = .null ∨ seed = .undefined) :
    Crc32C_ exports input seed = Crc32C_ exports input JSValue.zero ∧
    (input.toBoolean = false →
      (Crc32C_ exports input seed).completion = .ok () ∧
      (Crc32C_ exports input seed).this = ⟨JSValue.zero⟩ ∧
      (Crc32C_ exports input seed).calls = []) := by
  have hz : JSValue.or seed JSValue.zero = JSValue.zero := by
    rcases h with h | h <;> subst h <;> rfl
  have hzz : JSValue.or JSValue.zero JSValue.zero = JSValue.zero := by
    simp [JSValue.or]
  refine ⟨?_, ?_⟩
  · simp only [Crc32C_, hz, hzz]
  · intro hi
    simp [Crc32C_, hz, hi]

theorem session_absent_seed_witness :
    (JSValue.null = .null ∨ JSValue.null = .undefined) ∧
    Crc32C_ hostExports (.string "") .null = Crc32C_ hostExports (.string "") JSValue.zero ∧
    (Crc32C_ hostExports (.string "") .null).completion = .ok () ∧
    (Crc32C_ hostExports (.string "") .null).this = ⟨JSValue.zero⟩ ∧
    (Crc32C_ hostExports (.string "") .null).calls = [] :=
  ⟨Or.inl rfl, (session_absent_seed hostExports (.string "") .null (Or.inl rfl)).1,
    (session_absent_seed hostExports (.string "") .null (Or.inl rfl)).2
      (by simp [JSValue.toBoolean])⟩

/-- C7: for every session and every list of chunks, the updates in order
either all succeed, and then the state is the left fold of `calculate` over
the chunks from the initial state, or throw what the fold throws; an update
that does not throw returns the session itself; and `crc()` called any
number of times returns the current state, leaves the session unchanged and
does not call `calculate`. -/
theorem session_updates_fold (exports : Exports) (this : Crc32CObj)
    (chunks : List JSValue) (c : JSValue) (n : Nat) :
    (Crc32C_.updates exports this chunks).completion.map
        (fun _ => (Crc32C_.updates exports this chunks).this.crc32c)
      = foldCalculate exports this.crc32c chunks ∧
    (Crc32C_.update exports this c).completion
      = (exports.calculate c this.crc32c).map (fun _ => Returned.self) ∧
    (Crc32C_.update exports this c).completion.map
        (fun _ => (Crc32C_.update exports this c).this.crc32c)
      = exports.calculate c this.crc32c ∧
    Crc32C_.crcRepeated n this = ⟨this, .ok (.value this.crc32c), []⟩ := by
  refine ⟨updates_completion exports this chunks, ?_, ?_, crcRepeated_eq n this⟩
  · unfold Crc32C_.update
    cases exports.calculate c this.crc32c <;> rfl
  · unfold Crc32C_.update
    cases exports.calculate c this.crc32c <;> rfl

/-! ## The module exports -/

/-- C8: the exported `calculate` is the function `sse42_crc` of the binding
when `hardware_support` is true and the function `table_crc` otherwise.  The
export is the engine itself, fixed when the module body runs: a call
through it does not read the flag. -/
theorem calculate_selected_at_load (Crc32C : Native) (NODE_ENV : JSValue) :
    (Crc32C.hardware_support = true →
      (moduleExports Crc32C NODE_ENV).calculate = Crc32C.sse42_crc) ∧
    (Crc32C.hardware_support = false →
      (moduleExports Crc32C NODE_ENV).calculate = Crc32C.table_crc) ∧
    (∀ input seed, (moduleExports Crc32C NODE_ENV).calculate input seed
      = if Crc32C.hardware_support then Crc32C.sse42_crc input seed
        else Crc32C.table_crc input seed) := by
  unfold moduleExports
  by_cases he : NODE_ENV = .string "production" <;>
    cases hh : Crc32C.hardware_support <;> simp [he]

theorem calculate_selected_at_load_witness :
    (Crc32C true).hardware_support = true ∧
    (moduleExports (Crc32C true) .undefined).calculate = (Crc32C true).sse42_crc ∧
    (Crc32C false).hardware_support = false ∧
    (moduleExports (Crc32C false) .undefined).calculate = (Crc32C false).table_crc :=
  ⟨rfl, (calculate_selected_at_load (Crc32C true) .undefined).1 rfl, rfl,
    (calculate_selected_at_load (Crc32C false) .undefined).2.1 rfl⟩

/-! ## The stream -/

/-- C9: for every stream state and every chunk, the write handler calls its
completion callback exactly once, with the chunk unchanged as second
argument.  If `calculate(chunk, state)` returns `v`, the state becomes `v`
and the first argument is `undefined`; if it throws `e`, the state is
unchanged and the first argument is `e`. -/
theorem stream_write_once (exports : Exports) (this : StreamObj)
    (chunk encoding : JSValue) :
    (∃ err, (Crc32CStream.write exports this chunk encoding).nextCalls = [(err, chunk)]) ∧
    (∀ v, exports.calculate chunk this.crc = .ok v →
      (Crc32CStream.write exports this chunk encoding).this = ⟨v⟩ ∧
      (Crc32CStream.write exports this chunk encoding).nextCalls = [(.undefined, chunk)]) ∧
    (∀ e, exports.calculate chunk this.crc = .error e →
      (Crc32CStream.write exports this chunk encoding).this = this ∧
      (Crc32CStream.write exports this chunk encoding).nextCalls = [(e, chunk)]) := by
  refine ⟨⟨_, rfl⟩, ?_, ?_⟩
  · intro v hv
    simp [Crc32CStream.write, hv]
  · intro e he
    simp [Crc32CStream.write, he]

theorem stream_write_once_witness :
    (hostExports.calculate (.buffer digits) JSValue.zero = .ok (JSValue.u32 0xE3069283) ∧
      (Crc32CStream.write hostExports ⟨JSValue.zero⟩ (.buffer digits) .undefined).this
        = ⟨JSValue.u32 0xE3069283⟩ ∧
      (Crc32CStream.write hostExports ⟨JSValue.zero⟩ (.buffer digits) .undefined).nextCalls
        = [(.undefined, .buffer digits)]) ∧
    (hostExports.calculate (.object 0) JSValue.zero
        = .error (.typeError "unsupported input type") ∧
      (Crc32CStream.write hostExports ⟨JSValue.zero⟩ (.object 0) .undefined).this
        = ⟨JSValue.zero⟩ ∧
      (Crc32CStream.write hostExports ⟨JSValue.zero⟩ (.object 0) .undefined).nextCalls
        = [(.typeError "unsupported input type", .object 0)]) :=
  ⟨⟨hostExports_digits,
      (stream_write_once hostExports ⟨JSValue.zero⟩ (.buffer digits) .undefined).2.1 _
        hostExports_digits⟩,
    ⟨hostExports_object _,
      (stream_write_once hostExports ⟨JSValue.zero⟩ (.object 0) .undefined).2.2 _
        (hostExports_object _)⟩⟩

/-- C10: for every argument `crc`, with or without `new`, `Crc32CStream(crc)`
throws if and only if `crc` is neither `null` nor `undefined` nor of type
number, and what it throws is a `TypeError`; otherwise the initial state is
0 when `crc` is `null` or `undefined`, and `crc` itself when `crc` is a
number (0 and NaN included). -/
theorem stream_constructor_seed (thisIsInstance : Bool) (crc : JSValue) :
    ((∃ e, Crc32CStream thisIsInstance crc = .error e) ↔
      (crc ≠ .null ∧ crc ≠ .undefined ∧ crc.typeof ≠ "number")) ∧
    (∀ e, Crc32CStream thisIsInstance crc = .error e →
      e = .typeError ("crc MUST be a number; got " ++ crc.typeof)) ∧
    (crc = .null ∨ crc = .undefined →
      Crc32CStream thisIsInstance crc = .ok ⟨JSValue.zero⟩) ∧
    (crc.typeof = "number" → Crc32CStream thisIsInstance crc = .ok ⟨crc⟩) := by
  have hb : Crc32CStream thisIsInstance crc = Crc32CStream.init crc := by
    unfold Crc32CStream
    cases thisIsInstance <;> rfl
  rw [hb]
  cases crc <;> simp [Crc32CStream.init, JSValue.looseEqNull, JSValue.typeof]

theorem stream_constructor_seed_witness :
    ((JSValue.string "abc" ≠ .null ∧ JSValue.string "abc" ≠ .undefined ∧
        (JSValue.string "abc").typeof ≠ "number") ∧
      ∃ e, Crc32CStream false (.string "abc") = .error e) ∧
    ((JSValue.undefined = .null ∨ JSValue.undefined = .undefined) ∧
      Crc32CStream false .undefined = .ok ⟨JSValue.zero⟩) ∧
    ((JSValue.number .nan).typeof = "number" ∧
      Crc32CStream true (.number .nan) = .ok ⟨.number .nan⟩) :=
  ⟨⟨⟨by simp, by simp, by decide⟩,
      (stream_constructor_seed false (.string "abc")).1.mpr ⟨by simp, by simp, by decide⟩⟩,
    ⟨Or.inr rfl, (stream_constructor_seed false .undefined).2.2.1 (Or.inr rfl)⟩,
    ⟨rfl, (stream_constructor_seed true (.number .nan)).2.2.2 rfl⟩⟩

end Sse4Crc32
